import Mathlib

/-! Shallow embedding of the lys host/device protocol engine
(src/embedded/nRF5_SDK_11.0.0/examples/peripheral/lys/lys.c and lys.h)
together with proofs about its framing codec and session state machine.
Buffers and frames are lists of byte values (Nat), C unsigned arithmetic is
made explicit where wraparound or division by zero can occur, and the
blocking byte transport is modelled at frame granularity: the host side is a
list of incoming frames and the device appends every frame it sends to an
output list. -/

set_option maxHeartbeats 1000000

namespace Lys

/-- Error codes of the C library (lys_error_t); LYS_ERROR_SUCCESS is
represented by the ok constructor of the surrounding result type. -/
inductive lys_error_t
  | invalid_state
  | invalid_param
deriving DecidableEq

/-- Session states (lys_state_t). -/
inductive lys_state_t
  | unknown
  | wait_for_start
  | running
  | result
  | finished
deriving DecidableEq

/-- Result of a codec routine: success, a C error code, or C undefined
behavior (reached when the % operator gets a zero divisor). -/
inductive CRes (α : Type)
  | ok (a : α)
  | error (e : lys_error_t)
  | ub
deriving DecidableEq

@[simp] def LYS_MAX_MSG_LEN : Nat := 64

@[simp] def LYS_MAX_STR_LEN : Nat := 64

@[simp] def LYS_MAX_ARRAY_LEN : Nat := 64

@[simp] def LYS_PARAM_VARIABLE_SIZE : Nat := 0

@[simp] def LYS_DATA_INDEX : Nat := 3

@[simp] def LYS_ARRAY_DATA_INDEX : Nat := 4

/-- lys_str_t: a length field and the bytes behind the p_data pointer. -/
structure lys_str_t where
  len : Nat
  p_data : List Nat
deriving DecidableEq

/-- lys_array_t: inner param type, item count and the bytes behind the data
pointer (the union of typed pointers is modelled as the underlying bytes). -/
structure lys_array_t where
  param_type : Nat
  item_count : Nat
  data : List Nat
deriving DecidableEq

/-- lys_param_t.  The C struct holds a param_type byte and a union of
pointers; which union member the code reads is determined by param_type, so
the union is flattened into one field per member shape: the bytes behind
p_uint8 (scalar case), the possibly NULL p_str and the possibly NULL
p_array. -/
structure lys_param_t where
  param_type : Nat
  s_bytes : List Nat
  p_str : Option lys_str_t
  p_array : Option lys_array_t
deriving DecidableEq

/-- lys_param_len_lookup.  Returns the fixed wire size of a tag,
LYS_PARAM_VARIABLE_SIZE (= 0) for STRING and ARRAY, or fails (none models
the LYS_ERROR_INVALID_PARAM return) for undefined tag bytes. -/
def lys_param_len_lookup (param_type : Nat) : Option Nat :=
  if param_type = 0 then some 4
  else if param_type = 1 then some 4
  else if param_type = 2 then some 1
  else if param_type = 3 then some 1
  else if param_type = 4 then some 1
  else if param_type = 5 then some LYS_PARAM_VARIABLE_SIZE
  else if param_type = 6 then some LYS_PARAM_VARIABLE_SIZE
  else none

/-- C memcpy of exactly n bytes out of a source modelled as a list: bytes
past the end of the source are an out-of-bounds read whose values are
unspecified, modelled as 0.  The theorems below only use sources of length
at least n, where the padding is empty. -/
def memcpy_take (src : List Nat) (n : Nat) : List Nat :=
  src.take n ++ List.replicate (n - src.length) 0

/-- 32-bit unsigned subtraction (the C code subtracts unsigned long index
constants from a uint8_t value promoted to 32 bits). -/
def sub32 (a b : Nat) : Nat := (a + (4294967296 - b)) % 4294967296

/-- 32-bit unsigned addition: the target is ILP32, so unsigned long
arithmetic such as LYS_ARRAY_DATA_INDEX + data_len wraps at 2^32. -/
def add32 (a b : Nat) : Nat := (a + b) % 4294967296

/-- 32-bit unsigned multiplication: the uint32_t multiply
data_len *= item_count wraps at 2^32.  Taking raw Nat fields mod 2^32 here
agrees with C operating on the uint32_t-truncated field values. -/
def mul32 (a b : Nat) : Nat := (a * b) % 4294967296

/-- verify_array_len: NULL check, nonempty check, inner tag lookup,
rejection of variable-size inner tags, then the uint32 multiply
s * item_count and the unsigned long bound check
64 < 4 + data_len — both wrapping at 2^32 exactly as on the 32-bit
target, so a wrapped product can slip past the bound check; returns the
(wrapped) data length in bytes. -/
def verify_array_len : Option lys_array_t → Except lys_error_t Nat
  | none => .error .invalid_param
  | some a =>
    if a.item_count = 0 then .error .invalid_param
    else
      match lys_param_len_lookup a.param_type with
      | none => .error .invalid_param
      | some s =>
        if s = LYS_PARAM_VARIABLE_SIZE then .error .invalid_param
        else if LYS_MAX_MSG_LEN < add32 LYS_ARRAY_DATA_INDEX (mul32 s a.item_count) then
          .error .invalid_param
        else .ok (mul32 s a.item_count)

/-- verify_str_len: NULL check, nonempty check and the unsigned long bound
check 64 < 3 + len, wrapping at 2^32 as on the 32-bit target (a len of at
least 2^32 - 3 slips past it); returns the string length. -/
def verify_str_len : Option lys_str_t → Except lys_error_t Nat
  | none => .error .invalid_param
  | some s =>
    if s.len = 0 then .error .invalid_param
    else if LYS_MAX_MSG_LEN < add32 LYS_DATA_INDEX s.len then .error .invalid_param
    else .ok s.len

/-- param_add: produces the payload bytes written after the op byte (tag,
then for arrays the inner tag, then the data).  none models a NULL
p_param.  When a wrapped length has slipped past the verify bound check,
the memcpy writes data_len bytes starting at offset 4 (arrays) or 3
(strings) of the 64-byte m_buf, overrunning it — undefined behavior,
modelled by ub.  The scalar bound check is the same unsigned long
comparison, written with add32. -/
def param_add : Option lys_param_t → CRes (List Nat)
  | none => .error .invalid_param
  | some p =>
    match lys_param_len_lookup p.param_type with
    | none => .error .invalid_param
    | some param_len =>
      if param_len = LYS_PARAM_VARIABLE_SIZE then
        if p.param_type = 6 then
          match p.p_array with
          | none => .error .invalid_param
          | some a =>
            match verify_array_len (some a) with
            | .error e => .error e
            | .ok data_len =>
              if LYS_MAX_MSG_LEN < LYS_ARRAY_DATA_INDEX + data_len then .ub
              else .ok (6 :: a.param_type :: memcpy_take a.data data_len)
        else if p.param_type = 5 then
          match p.p_str with
          | none => .error .invalid_param
          | some s =>
            match verify_str_len (some s) with
            | .error e => .error e
            | .ok data_len =>
              if LYS_MAX_MSG_LEN < LYS_DATA_INDEX + data_len then .ub
              else .ok (p.param_type :: memcpy_take s.p_data data_len)
        else .error .invalid_param
      else if LYS_MAX_MSG_LEN < add32 LYS_DATA_INDEX param_len then
        .error .invalid_param
      else .ok (p.param_type :: memcpy_take p.s_bytes param_len)

/-- msg_create: writes the op byte at offset 1, appends the payload for
LYS_OP_PARAM (5) and LYS_OP_LOG (7), rejects undefined ops, and finally
stores the total byte count at offset 0. -/
def msg_create (op : Nat) (p : Option lys_param_t) : CRes (List Nat) :=
  if op = 0 ∨ op = 1 ∨ op = 2 ∨ op = 3 ∨ op = 4 ∨ op = 6 then
    .ok [2, op]
  else if op = 5 ∨ op = 7 then
    match param_add p with
    | .error e => .error e
    | .ub => .ub
    | .ok payload => .ok ((2 + payload.length) :: op :: payload)
  else .error .invalid_param

/-- A decoded parameter view borrowing from the scratch buffer: the tag
byte, plus length/count information and the data bytes it refers to. -/
inductive ParamView
  | scalar (tag : Nat) (bytes : List Nat)
  | str (len : Nat) (bytes : List Nat)
  | arr (itag : Nat) (count : Nat) (bytes : List Nat)
deriving DecidableEq

/-- param_parse: decodes the tag at offset 2 of the buffer.  The data length
for arrays is LEN - 4 and otherwise LEN - 3, computed with 32-bit unsigned
wraparound exactly as in C.  When the inner tag of an array is STRING or
ARRAY the lookup succeeds with size 0 and the C code evaluates
data_len % 0, which is undefined behavior, modelled by the ub result. -/
def param_parse (buf : List Nat) : CRes ParamView :=
  if buf.getD 2 0 = 6 then
    let itag := buf.getD 3 0
    let data_len := sub32 (buf.getD 0 0) LYS_ARRAY_DATA_INDEX
    match lys_param_len_lookup itag with
    | none => .error .invalid_param
    | some param_len =>
      if param_len = 0 then .ub
      else if data_len % param_len ≠ 0 then .error .invalid_param
      else .ok (.arr itag (data_len / param_len) ((buf.drop 4).take data_len))
  else
    let data_len := sub32 (buf.getD 0 0) LYS_DATA_INDEX
    if buf.getD 2 0 = 5 then
      .ok (.str data_len ((buf.drop 3).take data_len))
    else
      match lys_param_len_lookup (buf.getD 2 0) with
      | none => .error .invalid_param
      | some param_len =>
        if param_len ≠ data_len then .error .invalid_param
        else .ok (.scalar (buf.getD 2 0) ((buf.drop 3).take data_len))

/-- msg_parse: reads the op byte at offset 1; ops without parameters succeed
with no view, PARAM (5) and LOG (7) run param_parse, anything else is
invalid. -/
def msg_parse (buf : List Nat) : CRes (Nat × Option ParamView) :=
  let op := buf.getD 1 0
  if op = 0 ∨ op = 1 ∨ op = 2 ∨ op = 3 ∨ op = 4 ∨ op = 6 then
    .ok (op, none)
  else if op = 5 ∨ op = 7 then
    match param_parse buf with
    | .error e => .error e
    | .ub => .ub
    | .ok v => .ok (op, some v)
  else .error .invalid_param

theorem memcpy_take_all (src : List Nat) {n : Nat} (h : src.length = n) :
    memcpy_take src n = src := by
  subst h
  simp [memcpy_take]

theorem sub32_eq (a b : Nat) (h1 : b ≤ a) (h2 : a - b < 4294967296)
    (h3 : b ≤ 4294967296) : sub32 a b = a - b := by
  unfold sub32
  have h4 : a + (4294967296 - b) = (a - b) + 4294967296 := by omega
  rw [h4, Nat.add_mod_right]
  exact Nat.mod_eq_of_lt h2

theorem memcpy_take_length (src : List Nat) (n : Nat) :
    (memcpy_take src n).length = n := by
  simp only [memcpy_take, List.length_append, List.length_take,
    List.length_replicate]
  omega

theorem lys_param_len_lookup_le (t s : Nat)
    (h : lys_param_len_lookup t = some s) : s ≤ 4 := by
  unfold lys_param_len_lookup at h
  split_ifs at h <;> (try simp at h) <;> omega

theorem param_add_length (p : Option lys_param_t) (payload : List Nat)
    (h : param_add p = .ok payload) : payload.length ≤ 62 := by
  rcases p with _ | p
  · simp [param_add] at h
  · simp only [param_add] at h
    split at h
    · simp at h
    next plen hplen =>
      split at h
      · -- variable-size tag
        split at h
        · -- ARRAY branch
          split at h
          · simp at h
          next a ha =>
            split at h
            · simp at h
            next dlen hv =>
              split at h
              · simp at h
              next hfit =>
                obtain rfl : 6 :: a.param_type :: memcpy_take a.data dlen = payload := by
                  simpa using h
                simp only [List.length_cons, memcpy_take_length]
                simp only [LYS_ARRAY_DATA_INDEX, LYS_MAX_MSG_LEN] at hfit
                omega
        · -- STRING branch
          split at h
          · split at h
            · simp at h
            next s hsx =>
              split at h
              · simp at h
              next dlen hv =>
                split at h
                · simp at h
                next hfit =>
                  obtain rfl : p.param_type :: memcpy_take s.p_data dlen = payload := by
                    simpa using h
                  simp only [List.length_cons, memcpy_take_length]
                  simp only [LYS_DATA_INDEX, LYS_MAX_MSG_LEN] at hfit
                  omega
          · simp at h
      · -- fixed-size tag
        split at h
        · simp at h
        next hb =>
          obtain rfl : p.param_type :: memcpy_take p.s_bytes plen = payload := by
            simpa using h
          have hp4 := lys_param_len_lookup_le p.param_type plen hplen
          simp only [List.length_cons, memcpy_take_length]
          omega

/-- Claim C7: whenever msg_create succeeds, the byte at offset 0 of the
produced frame equals the total number of bytes of the frame including the
length byte itself, and that total is at most LYS_MAX_MSG_LEN (= 64).
Encoding uses the target's wrapping arithmetic: a length product that wraps
to a small value (e.g. inner U32 with item_count 2^30) encodes successfully
and still satisfies the invariant, while a wrapped length that slips past
the verify bound check and would overrun the scratch buffer is undefined
behavior (ub), which is not a success. -/
theorem c7_frame_length (op : Nat) (p : Option lys_param_t) (frame : List Nat)
    (h : msg_create op p = .ok frame) :
    frame.getD 0 0 = frame.length ∧ frame.length ≤ LYS_MAX_MSG_LEN := by
  unfold msg_create at h
  split at h
  · obtain rfl : [2, op] = frame := by simpa using h
    exact ⟨rfl, by norm_num⟩
  · split at h
    · cases hp : param_add p with
      | error e => rw [hp] at h; simp at h
      | ub => rw [hp] at h; simp at h
      | ok payload =>
        rw [hp] at h
        obtain rfl : (2 + payload.length) :: op :: payload = frame := by simpa using h
        have hl := param_add_length p payload hp
        refine ⟨?_, ?_⟩
        · simp only [List.getD_cons_zero, List.length_cons]
          omega
        · simp only [List.length_cons, LYS_MAX_MSG_LEN]
          omega
    · simp at h

/-- Witness for c7_frame_length at the concrete op INIT with no parameter. -/
theorem c7_witness :
    msg_create 1 none = .ok [2, 1] ∧
    ([2, 1] : List Nat).getD 0 0 = ([2, 1] : List Nat).length ∧
    ([2, 1] : List Nat).length ≤ LYS_MAX_MSG_LEN :=
  ⟨rfl, c7_frame_length 1 none [2, 1] rfl⟩

/-- Claim C2, refuted at concrete inputs: a complete PARAM frame whose tag
byte is ARRAY and whose inner tag byte is STRING (or ARRAY) drives decode
into data_len % 0 — lys_param_len_lookup succeeds with size 0 for these
tags and param_parse divides without checking — which is undefined behavior
in C, not an InvalidParam return.  The frames are
[LEN=5, OP=PARAM, ARRAY, STRING, one data byte] and the same with inner tag
ARRAY. -/
theorem c2_inner_variable_tag_ub :
    msg_parse [5, 5, 6, 5, 0] = .ub ∧ msg_parse [5, 5, 6, 6, 0] = .ub :=
  ⟨rfl, rfl⟩

/-- Claim C3, refuted at a concrete input: the ARRAY-bearing frame
[LEN=4, OP=PARAM, ARRAY, U32] with zero data bytes is accepted by decode
with item count 0 (0 mod 4 = 0 passes the divisibility check and no
positivity check exists), instead of being rejected with InvalidParam. -/
theorem c3_zero_item_array_accepted :
    msg_parse [4, 5, 6, 0] = .ok (5, some (.arr 0 0 [])) := rfl

/-- Claim C4, refuted at a concrete input: the STRING-bearing frame
[LEN=3, OP=PARAM, STRING] with zero data bytes is accepted by decode with a
zero-length string view — param_parse performs no length check at all on
the string path — instead of being rejected with InvalidParam. -/
theorem c4_zero_length_string_accepted :
    msg_parse [3, 5, 5] = .ok (5, some (.str 0 [])) := rfl

theorem scalar_roundtrip_aux (t S : Nat) (bs : List Nat)
    (ht6 : t ≠ 6) (ht5 : t ≠ 5)
    (hlk : lys_param_len_lookup t = some S) (hS : S ≠ 0) (hSle : S ≤ 61)
    (hbs : bs.length = S) :
    msg_create 5 (some ⟨t, bs, none, none⟩) = .ok ((3 + bs.length) :: 5 :: t :: bs) ∧
    msg_parse ((3 + bs.length) :: 5 :: t :: bs) = .ok (5, some (.scalar t bs)) := by
  subst hbs
  have hmem : memcpy_take bs bs.length = bs := memcpy_take_all bs rfl
  have hpa : param_add (some ⟨t, bs, none, none⟩) = .ok (t :: bs) := by
    have h1 : ¬(64 < add32 3 bs.length) := by
      unfold add32
      rw [Nat.mod_eq_of_lt (by omega)]
      omega
    simp [param_add, hlk, hS, h1, hmem]
  constructor
  · have h2 : 2 + (bs.length + 1) = 3 + bs.length := by omega
    simp [msg_create, hpa, h2]
  · have hb0 : ((3 + bs.length) :: 5 :: t :: bs).getD 0 0 = 3 + bs.length := rfl
    have hb1 : ((3 + bs.length) :: 5 :: t :: bs).getD 1 0 = 5 := rfl
    have hb2 : ((3 + bs.length) :: 5 :: t :: bs).getD 2 0 = t := rfl
    have hdrop : ((3 + bs.length) :: 5 :: t :: bs).drop 3 = bs := rfl
    have hdl : sub32 (3 + bs.length) 3 = bs.length := by
      rw [sub32_eq] <;> omega
    have htake : bs.take bs.length = bs := List.take_length bs
    simp [msg_parse, param_parse, hb0, hb1, hb2, hdrop, hdl, ht6, ht5, hlk,
      htake]

theorem str_roundtrip_aux (d : List Nat) (h1 : 1 ≤ d.length)
    (h2 : d.length ≤ 61) :
    msg_create 5 (some ⟨5, [], some ⟨d.length, d⟩, none⟩) =
      .ok ((3 + d.length) :: 5 :: 5 :: d) ∧
    msg_parse ((3 + d.length) :: 5 :: 5 :: d) = .ok (5, some (.str d.length d)) := by
  have hmem : memcpy_take d d.length = d := memcpy_take_all d rfl
  have hz : ¬(d.length = 0) := by omega
  have hb : ¬(64 < add32 3 d.length) := by
    unfold add32
    rw [Nat.mod_eq_of_lt (by omega)]
    omega
  have hfit : ¬(64 < 3 + d.length) := by omega
  have hvs : verify_str_len (some ⟨d.length, d⟩) = .ok d.length := by
    simp [verify_str_len, hz, hb]
  have hpa : param_add (some ⟨5, [], some ⟨d.length, d⟩, none⟩) = .ok (5 :: d) := by
    simp [param_add, lys_param_len_lookup, hvs, hfit, hmem]
  constructor
  · have h3 : 2 + (d.length + 1) = 3 + d.length := by omega
    simp [msg_create, hpa, h3]
  · have hc0 : ((3 + d.length) :: 5 :: 5 :: d).getD 0 0 = 3 + d.length := rfl
    have hc1 : ((3 + d.length) :: 5 :: 5 :: d).getD 1 0 = 5 := rfl
    have hc2 : ((3 + d.length) :: 5 :: 5 :: d).getD 2 0 = 5 := rfl
    have hdrop : ((3 + d.length) :: 5 :: 5 :: d).drop 3 = d := rfl
    have hdl : sub32 (3 + d.length) 3 = d.length := by
      rw [sub32_eq] <;> omega
    have htake : d.take d.length = d := List.take_length d
    simp [msg_parse, param_parse, hc0, hc1, hc2, hdrop, hdl, htake]

theorem arr_roundtrip_aux (itag S n : Nat) (d : List Nat)
    (hlk : lys_param_len_lookup itag = some S) (hS : S ≠ 0) (hn : 1 ≤ n)
    (hd : d.length = S * n) (hle : d.length ≤ 60) :
    msg_create 5 (some ⟨6, [], none, some ⟨itag, n, d⟩⟩) =
      .ok ((4 + d.length) :: 5 :: 6 :: itag :: d) ∧
    msg_parse ((4 + d.length) :: 5 :: 6 :: itag :: d) =
      .ok (5, some (.arr itag n d)) := by
  have hmem : memcpy_take d (S * n) = d := memcpy_take_all d hd
  have hn0 : ¬(n = 0) := by omega
  have hmul : mul32 S n = S * n := by
    unfold mul32
    exact Nat.mod_eq_of_lt (by omega)
  have hb : ¬(64 < add32 4 (S * n)) := by
    unfold add32
    rw [Nat.mod_eq_of_lt (by omega)]
    omega
  have hfit : ¬(64 < 4 + S * n) := by omega
  have hva : verify_array_len (some ⟨itag, n, d⟩) = .ok (S * n) := by
    simp [verify_array_len, hlk, hn0, hS, hmul, hb]
  have hpa : param_add (some ⟨6, [], none, some ⟨itag, n, d⟩⟩) =
      .ok (6 :: itag :: d) := by
    simp [param_add, lys_param_len_lookup, hva, hfit, hmem]
  constructor
  · have h3 : 2 + (S * n + 1 + 1) = 4 + S * n := by omega
    simp [msg_create, hpa, hd, h3]
  · rw [hd]
    have hc0 : ((4 + S * n) :: 5 :: 6 :: itag :: d).getD 0 0 = 4 + S * n := rfl
    have hc1 : ((4 + S * n) :: 5 :: 6 :: itag :: d).getD 1 0 = 5 := rfl
    have hc2 : ((4 + S * n) :: 5 :: 6 :: itag :: d).getD 2 0 = 6 := rfl
    have hc3 : ((4 + S * n) :: 5 :: 6 :: itag :: d).getD 3 0 = itag := rfl
    have hdrop : ((4 + S * n) :: 5 :: 6 :: itag :: d).drop 4 = d := rfl
    have hdl : sub32 (4 + S * n) 4 = S * n := by
      rw [sub32_eq] <;> omega
    have hmod : S * n % S = 0 := Nat.mul_mod_right S n
    have hdiv : S * n / S = n := Nat.mul_div_cancel_left n (Nat.pos_of_ne_zero hS)
    have htake : d.take (S * n) = d := by
      rw [← hd]
      exact List.take_length d
    simp [msg_parse, param_parse, hc0, hc1, hc2, hc3, hdrop, hdl, hlk, hS,
      hmod, hdiv, htake]

/-- Claim C1 (amended): the codec round trip holds on the domain the encoder
actually accepts — every scalar value of tag U32, I32, U8 or I8 or BOOL,
every string of length 1..61 (the encoder requires 3 + L ≤ 64, not L ≤ 64),
and every array with scalar inner tag, at least one item and at most 60
data bytes on the wire (the encoder requires 4 + N*S ≤ 64, not N*S ≤ 64):
encoding a PARAM frame succeeds and decoding the produced frame yields op
PARAM and a view with the same tag, length and bytes. -/
theorem c1_roundtrip :
    (∀ (t : Nat) (bs : List Nat), t ≤ 4 →
      bs.length = (lys_param_len_lookup t).getD 0 →
      msg_create 5 (some ⟨t, bs, none, none⟩) =
        .ok ((3 + bs.length) :: 5 :: t :: bs) ∧
      msg_parse ((3 + bs.length) :: 5 :: t :: bs) =
        .ok (5, some (.scalar t bs))) ∧
    (∀ d : List Nat, 1 ≤ d.length → d.length ≤ 61 →
      msg_create 5 (some ⟨5, [], some ⟨d.length, d⟩, none⟩) =
        .ok ((3 + d.length) :: 5 :: 5 :: d) ∧
      msg_parse ((3 + d.length) :: 5 :: 5 :: d) =
        .ok (5, some (.str d.length d))) ∧
    (∀ (itag n : Nat) (d : List Nat), itag ≤ 4 → 1 ≤ n →
      d.length = (lys_param_len_lookup itag).getD 0 * n → d.length ≤ 60 →
      msg_create 5 (some ⟨6, [], none, some ⟨itag, n, d⟩⟩) =
        .ok ((4 + d.length) :: 5 :: 6 :: itag :: d) ∧
      msg_parse ((4 + d.length) :: 5 :: 6 :: itag :: d) =
        .ok (5, some (.arr itag n d))) := by
  refine ⟨?_, ?_, ?_⟩
  · intro t bs ht hbs
    interval_cases t
    · exact scalar_roundtrip_aux 0 4 bs (by decide) (by decide) rfl (by decide)
        (by decide) (by simpa [lys_param_len_lookup] using hbs)
    · exact scalar_roundtrip_aux 1 4 bs (by decide) (by decide) rfl (by decide)
        (by decide) (by simpa [lys_param_len_lookup] using hbs)
    · exact scalar_roundtrip_aux 2 1 bs (by decide) (by decide) rfl (by decide)
        (by decide) (by simpa [lys_param_len_lookup] using hbs)
    · exact scalar_roundtrip_aux 3 1 bs (by decide) (by decide) rfl (by decide)
        (by decide) (by simpa [lys_param_len_lookup] using hbs)
    · exact scalar_roundtrip_aux 4 1 bs (by decide) (by decide) rfl (by decide)
        (by decide) (by simpa [lys_param_len_lookup] using hbs)
  · intro d h1 h2
    exact str_roundtrip_aux d h1 h2
  · intro itag n d hit hn hd hle
    interval_cases itag
    · exact arr_roundtrip_aux 0 4 n d rfl (by decide) hn (by simpa [lys_param_len_lookup] using hd) hle
    · exact arr_roundtrip_aux 1 4 n d rfl (by decide) hn (by simpa [lys_param_len_lookup] using hd) hle
    · exact arr_roundtrip_aux 2 1 n d rfl (by decide) hn (by simpa [lys_param_len_lookup] using hd) hle
    · exact arr_roundtrip_aux 3 1 n d rfl (by decide) hn (by simpa [lys_param_len_lookup] using hd) hle
    · exact arr_roundtrip_aux 4 1 n d rfl (by decide) hn (by simpa [lys_param_len_lookup] using hd) hle

/-- Witness for c1_roundtrip at concrete inputs: a U32 scalar, a one-byte
string and a two-item U8 array. -/
theorem c1_witness :
    (msg_create 5 (some ⟨0, [1, 2, 3, 4], none, none⟩) =
       .ok [7, 5, 0, 1, 2, 3, 4] ∧
     msg_parse [7, 5, 0, 1, 2, 3, 4] = .ok (5, some (.scalar 0 [1, 2, 3, 4]))) ∧
    (msg_create 5 (some ⟨5, [], some ⟨1, [65]⟩, none⟩) = .ok [4, 5, 5, 65] ∧
     msg_parse [4, 5, 5, 65] = .ok (5, some (.str 1 [65]))) ∧
    (msg_create 5 (some ⟨6, [], none, some ⟨2, 2, [10, 20]⟩⟩) =
       .ok [6, 5, 6, 2, 10, 20] ∧
     msg_parse [6, 5, 6, 2, 10, 20] = .ok (5, some (.arr 2 2 [10, 20]))) :=
  ⟨c1_roundtrip.1 0 [1, 2, 3, 4] (by decide) (by decide),
   c1_roundtrip.2.1 [65] (by decide) (by decide),
   c1_roundtrip.2.2 2 2 [10, 20] (by decide) (by decide) (by decide) (by decide)⟩

/-- Counterexample to claim C1 as stated: the string of 64 sevens has
length within the claimed bound 1 ≤ L ≤ 64, yet encoding it as a PARAM
frame fails with InvalidParam (the encoder requires 3 + L ≤ 64, i.e.
L ≤ 61), so the round trip cannot hold for it. -/
theorem c1_counterexample :
    msg_create 5 (some ⟨5, [], some ⟨64, List.replicate 64 7⟩, none⟩) =
      .error .invalid_param := rfl

/-- The engine state: m_state and the sticky error flag m_error. -/
structure Engine where
  state : lys_state_t
  error : Bool
deriving DecidableEq

/-- The wire, modelled at frame granularity: host is the list of frames the
host side is going to deliver (msg_receive takes the next one), sent is the
list of frames the device has written, in order. -/
structure Wire where
  host : List (List Nat)
  sent : List (List Nat)
deriving DecidableEq

/-- Result of a transport-level helper: success with a value, a C error
code, C undefined behavior, or blocked forever (msg_receive with no further
host input never returns). -/
inductive HRes (α : Type)
  | ok (a : α) (w : Wire)
  | er (code : lys_error_t) (w : Wire)
  | ub
  | stuck
deriving DecidableEq

/-- Result of a public engine operation: as HRes but also carrying the
engine cells on return. -/
inductive OpRes (α : Type)
  | ok (a : α) (eng : Engine) (w : Wire)
  | er (code : lys_error_t) (eng : Engine) (w : Wire)
  | ub
  | stuck
deriving DecidableEq

/-- m_ack_buf: the constant ACK frame. -/
def ack_frame : List Nat := [2, 6]

/-- msg_receive: blocks until a complete frame is in the buffer, then parses
it.  At frame granularity this takes the next host frame; with no more host
input the loop polls forever (stuck). -/
def msg_receive (w : Wire) : HRes (Nat × Option ParamView) :=
  match w.host with
  | [] => .stuck
  | f :: rest =>
    match msg_parse f with
    | .error e => .er e ⟨rest, w.sent⟩
    | .ub => .ub
    | .ok r => .ok r ⟨rest, w.sent⟩

/-- msg_receive_and_ack: receive and parse one frame, then send the ACK
frame. -/
def msg_receive_and_ack (w : Wire) : HRes (Nat × Option ParamView) :=
  match msg_receive w with
  | .ok r w2 => .ok r ⟨w2.host, w2.sent ++ [ack_frame]⟩
  | .er e w2 => .er e w2
  | .ub => .ub
  | .stuck => .stuck

/-- wait_for_ack: receive one frame and require its op to be LYS_OP_ACK
(6); any other op is LYS_ERROR_INVALID_STATE. -/
def wait_for_ack (w : Wire) : HRes Unit :=
  match msg_receive w with
  | .ok r w2 => if r.1 = 6 then .ok () w2 else .er .invalid_state w2
  | .er e w2 => .er e w2
  | .ub => .ub
  | .stuck => .stuck

/-- msg_send_and_ack: encode the frame (an encoding failure returns before
any byte reaches the wire; an encoding that overruns the buffer is ub),
send it, then await the ACK. -/
def msg_send_and_ack (op : Nat) (p : Option lys_param_t) (w : Wire) : HRes Unit :=
  match msg_create op p with
  | .error e => .er e w
  | .ub => .ub
  | .ok frame => wait_for_ack ⟨w.host, w.sent ++ [frame]⟩

/-- lys_init: state UNKNOWN, sticky error cleared. -/
def lys_init : Engine := ⟨.unknown, false⟩

/-- The tag byte a decoded view reports as m_param.param_type. -/
def viewTag : ParamView → Nat
  | .scalar t _ => t
  | .str _ _ => 5
  | .arr _ _ _ => 6

/-- Second half of lys_param_wait, after the implicit INIT handshake: the
state must be WAIT_FOR_START, then one frame is received and ACKed; START
moves to RUNNING with param_set false, PARAM returns the view with
param_set true, anything else calls error() and fails with
INVALID_STATE. -/
def param_wait_rest (e : Engine) (w : Wire) : OpRes (Option ParamView × Bool) :=
  if e.state ≠ .wait_for_start then .er .invalid_state e w
  else
    match msg_receive_and_ack w with
    | .er c w2 => .er c ⟨.unknown, true⟩ w2
    | .ub => .ub
    | .stuck => .stuck
    | .ok (op, pv) w2 =>
      if op = 2 then .ok (pv, false) ⟨.running, e.error⟩ w2
      else if op = 5 then .ok (pv, true) e w2
      else .er .invalid_state ⟨.unknown, true⟩ w2

/-- lys_param_wait: in state UNKNOWN with no sticky error it first sends
INIT and awaits its ACK (failure there calls error()), moving to
WAIT_FOR_START; then proceeds as param_wait_rest. -/
def lys_param_wait (e : Engine) (w : Wire) : OpRes (Option ParamView × Bool) :=
  if e.state = .unknown ∧ e.error = false then
    match msg_send_and_ack 1 none w with
    | .er c w2 => .er c ⟨.unknown, true⟩ w2
    | .ub => .ub
    | .stuck => .stuck
    | .ok _ w2 => param_wait_rest { e with state := .wait_for_start } w2
  else param_wait_rest e w

/-- The copy-in step of lys_params_receive for one expected entry: the C
switch on the expected type runs the scalar length lookup, str_copy or
array_copy and reports their validation failures.  Destination storage is
caller memory whose contents no claim depends on, so only the control flow
(success or error code) is modelled.  The wildcard arms correspond to union
reinterpretations that the preceding tag-equality guard makes
unreachable. -/
def copy_step (t : Nat) (v : ParamView) : Option lys_error_t :=
  if t ≤ 4 then
    match lys_param_len_lookup t with
    | none => some .invalid_param
    | some plen =>
      if plen = LYS_PARAM_VARIABLE_SIZE then some .invalid_param else none
  else if t = 5 then
    match v with
    | .str len _ =>
      if len > LYS_MAX_STR_LEN ∨ len = 0 then some .invalid_param else none
    | _ => some .invalid_param
  else if t = 6 then
    match v with
    | .arr itag count _ =>
      match lys_param_len_lookup itag with
      | none => some .invalid_param
      | some dl =>
        if dl = LYS_PARAM_VARIABLE_SIZE ∨ dl = 0 then some .invalid_param
        else if mul32 dl count > LYS_MAX_ARRAY_LEN then some .invalid_param
        else none
    | _ => some .invalid_param
  else some .invalid_param

/-- lys_params_receive over the list of expected param type tags: for each
entry wait for a param, require param_set and a matching tag, run the copy
step; after the list one more wait must yield param_set false (START),
otherwise error() is called and INVALID_STATE returned.  Dereferencing the
received-param pointer when no view was produced would be a NULL
dereference (ub); it is unreachable because PARAM frames always carry a
view. -/
def lys_params_receive (ts : List Nat) (e : Engine) (w : Wire) : OpRes Unit :=
  match ts with
  | [] =>
    match lys_param_wait e w with
    | .er c e2 w2 => .er c e2 w2
    | .ub => .ub
    | .stuck => .stuck
    | .ok (_, pset) e2 w2 =>
      if pset then .er .invalid_state ⟨.unknown, true⟩ w2
      else .ok () e2 w2
  | t :: rest =>
    match lys_param_wait e w with
    | .er c e2 w2 => .er c e2 w2
    | .ub => .ub
    | .stuck => .stuck
    | .ok (pv, pset) e2 w2 =>
      if pset = false then .er .invalid_param e2 w2
      else
        match pv with
        | none => .ub
        | some v =>
          if viewTag v ≠ t then .er .invalid_param e2 w2
          else
            match copy_step t v with
            | some c => .er c e2 w2
            | none => lys_params_receive rest e2 w2

/-- Second half of lys_param_send: state must be RESULT, then the PARAM
frame is sent and its ACK awaited; any failure of that call (including a
pure encoding failure) runs error(). -/
def param_send_rest (p : Option lys_param_t) (e : Engine) (w : Wire) : OpRes Unit :=
  if e.state ≠ .result then .er .invalid_state e w
  else
    match msg_send_and_ack 5 p w with
    | .er c w2 => .er c ⟨.unknown, true⟩ w2
    | .ub => .ub
    | .stuck => .stuck
    | .ok _ w2 => .ok () e w2

/-- lys_param_send: in state RUNNING first send RESULT and await its ACK,
moving to RESULT; then proceed as param_send_rest. -/
def lys_param_send (p : Option lys_param_t) (e : Engine) (w : Wire) : OpRes Unit :=
  if e.state = .running then
    match msg_send_and_ack 3 none w with
    | .er c w2 => .er c ⟨.unknown, true⟩ w2
    | .ub => .ub
    | .stuck => .stuck
    | .ok _ w2 => param_send_rest p { e with state := .result } w2
  else param_send_rest p e w

/-- Second half of lys_finish: state must be RESULT, then FINISHED is sent
and its ACK awaited; on success m_state is (re)assigned LYS_STATE_RESULT
exactly as in the source. -/
def finish_rest (e : Engine) (w : Wire) : OpRes Unit :=
  if e.state ≠ .result then .er .invalid_state e w
  else
    match msg_send_and_ack 4 none w with
    | .er c w2 => .er c ⟨.unknown, true⟩ w2
    | .ub => .ub
    | .stuck => .stuck
    | .ok _ w2 => .ok () { e with state := .result } w2

/-- lys_finish: in state RUNNING first send RESULT and await its ACK,
moving to RESULT; then proceed as finish_rest. -/
def lys_finish (e : Engine) (w : Wire) : OpRes Unit :=
  if e.state = .running then
    match msg_send_and_ack 3 none w with
    | .er c w2 => .er c ⟨.unknown, true⟩ w2
    | .ub => .ub
    | .stuck => .stuck
    | .ok _ w2 => finish_rest { e with state := .result } w2
  else finish_rest e w

/-- lys_results_send: lys_param_send for each entry in order, then
lys_finish. -/
def lys_results_send (ps : List lys_param_t) (e : Engine) (w : Wire) : OpRes Unit :=
  match ps with
  | [] => lys_finish e w
  | p :: rest =>
    match lys_param_send (some p) e w with
    | .er c e2 w2 => .er c e2 w2
    | .ub => .ub
    | .stuck => .stuck
    | .ok _ e2 w2 => lys_results_send rest e2 w2

/-- lys_error_send: calls error() first, then encodes and sends an UNKNOWN
frame and awaits its ACK; the engine stays in UNKNOWN with the sticky error
set whatever the handshake outcome. -/
def lys_error_send (_e : Engine) (w : Wire) : OpRes Unit :=
  match msg_create 0 none with
  | .error c => .er c ⟨.unknown, true⟩ w
  | .ub => .ub
  | .ok frame =>
    match wait_for_ack ⟨w.host, w.sent ++ [frame]⟩ with
    | .ok _ w2 => .ok () ⟨.unknown, true⟩ w2
    | .er c w2 => .er c ⟨.unknown, true⟩ w2
    | .ub => .ub
    | .stuck => .stuck

/-- lys_log_send: rejected in WAIT_FOR_START and RESULT; otherwise the
string is wrapped in a STRING-typed m_param and sent as a LOG frame with
ACK, any failure of that call running error(). -/
def lys_log_send (s : Option lys_str_t) (e : Engine) (w : Wire) : OpRes Unit :=
  if e.state = .wait_for_start ∨ e.state = .result then .er .invalid_state e w
  else
    match msg_send_and_ack 7 (some ⟨5, [], s, none⟩) w with
    | .er c w2 => .er c ⟨.unknown, true⟩ w2
    | .ub => .ub
    | .stuck => .stuck
    | .ok _ w2 => .ok () e w2

/-- Counterexample to claim C5 as stated: lys_param_send in state RESULT
with a NULL parameter (a pure validation failure inside msg_create, before
any byte is written) returns InvalidParam but does NOT leave the session
state and sticky error flag as they were: error() runs and the engine ends
in UNKNOWN with the sticky error set. -/
theorem c5_counterexample :
    lys_param_send none ⟨.result, false⟩ ⟨[], []⟩ =
      .er .invalid_param ⟨.unknown, true⟩ ⟨[], []⟩ ∧
    (⟨.unknown, true⟩ : Engine) ≠ ⟨.result, false⟩ :=
  ⟨rfl, by decide⟩

/-- Claim C5 (amended): when encoding fails pure validation (msg_create
returns an error before any byte reaches the wire), lys_param_send called
in state RESULT and lys_log_send called in state UNKNOWN or RUNNING return
that InvalidParam error with nothing sent and nothing consumed from the
host — but, contrary to the claim, they do not leave the engine cells
untouched: the sticky error flag is set and the state is forced to
UNKNOWN. -/
theorem c5_validation_failure_sets_error :
    (∀ (p : Option lys_param_t) (e : Engine) (w : Wire) (c : lys_error_t),
      e.state = .result → msg_create 5 p = .error c →
      lys_param_send p e w = .er c ⟨.unknown, true⟩ w) ∧
    (∀ (s : Option lys_str_t) (e : Engine) (w : Wire) (c : lys_error_t),
      e.state = .unknown ∨ e.state = .running →
      msg_create 7 (some ⟨5, [], s, none⟩) = .error c →
      lys_log_send s e w = .er c ⟨.unknown, true⟩ w) := by
  constructor
  · intro p e w c hst hc
    simp [lys_param_send, param_send_rest, msg_send_and_ack, hst, hc]
  · intro s e w c hst hc
    rcases hst with hst | hst <;>
      simp [lys_log_send, msg_send_and_ack, hst, hc]

/-- Witness for c5_validation_failure_sets_error: a NULL parameter in state
RESULT and a zero-length log string in state UNKNOWN. -/
theorem c5_witness :
    lys_param_send none ⟨.result, false⟩ ⟨[[2, 6]], []⟩ =
      .er .invalid_param ⟨.unknown, true⟩ ⟨[[2, 6]], []⟩ ∧
    lys_log_send (some ⟨0, []⟩) ⟨.unknown, false⟩ ⟨[[2, 6]], []⟩ =
      .er .invalid_param ⟨.unknown, true⟩ ⟨[[2, 6]], []⟩ :=
  ⟨c5_validation_failure_sets_error.1 none ⟨.result, false⟩ ⟨[[2, 6]], []⟩
     .invalid_param rfl rfl,
   c5_validation_failure_sets_error.2 (some ⟨0, []⟩) ⟨.unknown, false⟩
     ⟨[[2, 6]], []⟩ .invalid_param (Or.inl rfl) rfl⟩

theorem param_wait_param_frame (e : Engine) (f : List Nat) (v : ParamView)
    (hs ss : List (List Nat)) (hst : e.state = .wait_for_start)
    (hf : msg_parse f = .ok (5, some v)) :
    lys_param_wait e ⟨f :: hs, ss⟩ = .ok (some v, true) e ⟨hs, ss ++ [ack_frame]⟩ := by
  have hne : ¬(e.state = .unknown ∧ e.error = false) := by simp [hst]
  simp [lys_param_wait, hne, param_wait_rest, hst, msg_receive_and_ack,
    msg_receive, hf]

theorem param_wait_start_frame (e : Engine) (hs ss : List (List Nat))
    (hst : e.state = .wait_for_start) :
    lys_param_wait e ⟨[2, 2] :: hs, ss⟩ =
      .ok (none, false) ⟨.running, e.error⟩ ⟨hs, ss ++ [ack_frame]⟩ := by
  have hne : ¬(e.state = .unknown ∧ e.error = false) := by simp [hst]
  have hp : msg_parse [2, 2] = .ok (2, none) := rfl
  simp [lys_param_wait, hne, param_wait_rest, hst, msg_receive_and_ack,
    msg_receive, hp]

theorem param_wait_frame_error (e : Engine) (f : List Nat) (c : lys_error_t)
    (hs ss : List (List Nat)) (hst : e.state = .wait_for_start)
    (hf : msg_parse f = .error c) :
    lys_param_wait e ⟨f :: hs, ss⟩ = .er c ⟨.unknown, true⟩ ⟨hs, ss⟩ := by
  have hne : ¬(e.state = .unknown ∧ e.error = false) := by simp [hst]
  simp [lys_param_wait, hne, param_wait_rest, hst, msg_receive_and_ack,
    msg_receive, hf]

theorem param_wait_unexpected_op (e : Engine) (f : List Nat) (op : Nat)
    (pv : Option ParamView) (hs ss : List (List Nat))
    (hst : e.state = .wait_for_start) (hf : msg_parse f = .ok (op, pv))
    (h2 : op ≠ 2) (h5 : op ≠ 5) :
    lys_param_wait e ⟨f :: hs, ss⟩ =
      .er .invalid_state ⟨.unknown, true⟩ ⟨hs, ss ++ [ack_frame]⟩ := by
  have hne : ¬(e.state = .unknown ∧ e.error = false) := by simp [hst]
  simp [lys_param_wait, hne, param_wait_rest, hst, msg_receive_and_ack,
    msg_receive, hf, h2, h5]

theorem params_receive_propagates_er (ts : List Nat) (e e2 : Engine)
    (w w2 : Wire) (c : lys_error_t)
    (hpw : lys_param_wait e w = .er c e2 w2) :
    lys_params_receive ts e w = .er c e2 w2 := by
  cases ts <;> simp [lys_params_receive, hpw]

theorem params_receive_nil_param (e : Engine) (g : List Nat) (v : ParamView)
    (hs ss : List (List Nat)) (hst : e.state = .wait_for_start)
    (hg : msg_parse g = .ok (5, some v)) :
    lys_params_receive [] e ⟨g :: hs, ss⟩ =
      .er .invalid_state ⟨.unknown, true⟩ ⟨hs, ss ++ [ack_frame]⟩ := by
  have hpw := param_wait_param_frame e g v hs ss hst hg
  simp [lys_params_receive, hpw]

/-- Counterexample to claim C6 as stated: with expected list [U32] and the
host delivering a PARAM frame of tag I32, lys_params_receive returns
InvalidParam after the frame has been received and ACKed, yet the sticky
error flag stays clear and the state stays WAIT_FOR_START — the engine
does not set the sticky error flag or force UNKNOWN for this post-ACK
failure. -/
theorem c6_counterexample :
    lys_params_receive [0] ⟨.wait_for_start, false⟩
        ⟨[[7, 5, 1, 9, 9, 9, 9]], []⟩ =
      .er .invalid_param ⟨.wait_for_start, false⟩ ⟨[], [[2, 6]]⟩ ∧
    (⟨.wait_for_start, false⟩ : Engine).error = false ∧
    (⟨.wait_for_start, false⟩ : Engine).state ≠ .unknown :=
  ⟨rfl, rfl, by decide⟩

/-- Claim C6 (amended): failures inside param_wait itself — a frame that
does not decode (the error is returned before the ACK) or a decoded frame
with an unexpected op (after the ACK) — and the extra-PARAM-after-the-list
case set the sticky error flag, force the state to UNKNOWN and propagate
the error to the caller; but a tag mismatch or a string/array copy failure
inside params_receive — which also happens after the offending frame has
been received and ACKed — merely returns InvalidParam (or the copy's error
code) to the caller, leaving the session state (WAIT_FOR_START) and the
sticky error flag exactly as they were. -/
theorem c6_post_ack_local_failure :
    (∀ (ts : List Nat) (f : List Nat) (c : lys_error_t) (e : Engine)
        (hs ss : List (List Nat)),
      e.state = .wait_for_start →
      msg_parse f = .error c →
      lys_params_receive ts e ⟨f :: hs, ss⟩ =
        .er c ⟨.unknown, true⟩ ⟨hs, ss⟩) ∧
    (∀ (ts : List Nat) (f : List Nat) (op : Nat) (pv : Option ParamView)
        (e : Engine) (hs ss : List (List Nat)),
      e.state = .wait_for_start →
      msg_parse f = .ok (op, pv) → op ≠ 2 → op ≠ 5 →
      lys_params_receive ts e ⟨f :: hs, ss⟩ =
        .er .invalid_state ⟨.unknown, true⟩ ⟨hs, ss ++ [ack_frame]⟩) ∧
    (∀ (g : List Nat) (v : ParamView) (e : Engine) (hs ss : List (List Nat)),
      e.state = .wait_for_start →
      msg_parse g = .ok (5, some v) →
      lys_params_receive [] e ⟨g :: hs, ss⟩ =
        .er .invalid_state ⟨.unknown, true⟩ ⟨hs, ss ++ [ack_frame]⟩) ∧
    (∀ (t : Nat) (rest : List Nat) (f : List Nat) (v : ParamView) (e : Engine)
        (hs ss : List (List Nat)),
      e.state = .wait_for_start →
      msg_parse f = .ok (5, some v) →
      viewTag v ≠ t →
      lys_params_receive (t :: rest) e ⟨f :: hs, ss⟩ =
        .er .invalid_param e ⟨hs, ss ++ [ack_frame]⟩) ∧
    (∀ (t : Nat) (rest : List Nat) (f : List Nat) (v : ParamView)
        (c : lys_error_t) (e : Engine) (hs ss : List (List Nat)),
      e.state = .wait_for_start →
      msg_parse f = .ok (5, some v) →
      viewTag v = t →
      copy_step t v = some c →
      lys_params_receive (t :: rest) e ⟨f :: hs, ss⟩ =
        .er c e ⟨hs, ss ++ [ack_frame]⟩) := by
  refine ⟨?_, ?_, ?_, ?_, ?_⟩
  · intro ts f c e hs ss hst hf
    exact params_receive_propagates_er ts e ⟨.unknown, true⟩ ⟨f :: hs, ss⟩
      ⟨hs, ss⟩ c (param_wait_frame_error e f c hs ss hst hf)
  · intro ts f op pv e hs ss hst hf h2 h5
    exact params_receive_propagates_er ts e ⟨.unknown, true⟩ ⟨f :: hs, ss⟩
      ⟨hs, ss ++ [ack_frame]⟩ .invalid_state
      (param_wait_unexpected_op e f op pv hs ss hst hf h2 h5)
  · intro g v e hs ss hst hg
    exact params_receive_nil_param e g v hs ss hst hg
  · intro t rest f v e hs ss hst hf hmis
    have hpw := param_wait_param_frame e f v hs ss hst hf
    simp [lys_params_receive, hpw, hmis]
  · intro t rest f v c e hs ss hst hf hvt hcs
    have hpw := param_wait_param_frame e f v hs ss hst hf
    simp [lys_params_receive, hpw, hvt, hcs]

/-- Witness for c6_post_ack_local_failure: an undecodable frame (op 9), an
unexpected RESULT op, an extra PARAM after the list, a tag mismatch
(expected U32, received I32) and a copy failure (expected STRING, received
a zero-length string frame). -/
theorem c6_witness :
    lys_params_receive [0] ⟨.wait_for_start, false⟩ ⟨[[2, 9]], []⟩ =
      .er .invalid_param ⟨.unknown, true⟩ ⟨[], []⟩ ∧
    lys_params_receive [0] ⟨.wait_for_start, false⟩ ⟨[[2, 3]], []⟩ =
      .er .invalid_state ⟨.unknown, true⟩ ⟨[], [ack_frame]⟩ ∧
    lys_params_receive [] ⟨.wait_for_start, false⟩
        ⟨[[7, 5, 0, 1, 2, 3, 4]], []⟩ =
      .er .invalid_state ⟨.unknown, true⟩ ⟨[], [ack_frame]⟩ ∧
    lys_params_receive [0] ⟨.wait_for_start, false⟩
        ⟨[[7, 5, 1, 9, 9, 9, 9]], []⟩ =
      .er .invalid_param ⟨.wait_for_start, false⟩ ⟨[], [ack_frame]⟩ ∧
    lys_params_receive [5] ⟨.wait_for_start, false⟩ ⟨[[3, 5, 5]], []⟩ =
      .er .invalid_param ⟨.wait_for_start, false⟩ ⟨[], [ack_frame]⟩ :=
  ⟨c6_post_ack_local_failure.1 [0] [2, 9] .invalid_param
     ⟨.wait_for_start, false⟩ [] [] rfl rfl,
   c6_post_ack_local_failure.2.1 [0] [2, 3] 3 none
     ⟨.wait_for_start, false⟩ [] [] rfl rfl (by decide) (by decide),
   c6_post_ack_local_failure.2.2.1 [7, 5, 0, 1, 2, 3, 4]
     (.scalar 0 [1, 2, 3, 4]) ⟨.wait_for_start, false⟩ [] [] rfl rfl,
   c6_post_ack_local_failure.2.2.2.1 0 [] [7, 5, 1, 9, 9, 9, 9]
     (.scalar 1 [9, 9, 9, 9]) ⟨.wait_for_start, false⟩ [] [] rfl rfl (by decide),
   c6_post_ack_local_failure.2.2.2.2 5 [] [3, 5, 5] (.str 0 []) .invalid_param
     ⟨.wait_for_start, false⟩ [] [] rfl rfl rfl rfl⟩

theorem finish_rest_ok_engine (e : Engine) (w : Wire) (a : Unit) (e2 : Engine)
    (w2 : Wire) (h : finish_rest e w = .ok a e2 w2) : e2 = ⟨.result, e.error⟩ := by
  unfold finish_rest at h
  split at h
  · simp at h
  · cases hsnd : msg_send_and_ack 4 none w <;> rw [hsnd] at h <;> simp at h
    exact h.1.symm

theorem lys_finish_ok_engine (e : Engine) (w : Wire) (a : Unit) (e2 : Engine)
    (w2 : Wire) (h : lys_finish e w = .ok a e2 w2) : e2 = ⟨.result, e.error⟩ := by
  unfold lys_finish at h
  split at h
  · cases hsnd : msg_send_and_ack 3 none w <;> rw [hsnd] at h <;> try simp at h
    have := finish_rest_ok_engine _ _ _ _ _ h
    simpa using this
  · exact finish_rest_ok_engine _ _ _ _ _ h

/-- Claim C10: a successful lys_finish leaves the engine in state RESULT
with the sticky error flag still clear (when it was clear before), so the
session end is not enforced: a further lys_finish sends another FINISHED
frame ([2, 4]) and succeeds, and a further lys_param_send with a valid U32
parameter sends another PARAM frame and succeeds, both leaving the engine
unchanged. -/
theorem c10_finish_not_terminal (e : Engine) (w : Wire) (e2 : Engine)
    (w2 : Wire) (herr : e.error = false) (hfin : lys_finish e w = .ok () e2 w2) :
    e2.state = .result ∧ e2.error = false ∧
    (∀ hs ss, lys_finish e2 ⟨ack_frame :: hs, ss⟩ =
      .ok () e2 ⟨hs, ss ++ [[2, 4]]⟩) ∧
    (∀ (bs : List Nat) (hs ss : List (List Nat)), bs.length = 4 →
      lys_param_send (some ⟨0, bs, none, none⟩) e2 ⟨ack_frame :: hs, ss⟩ =
        .ok () e2 ⟨hs, ss ++ [7 :: 5 :: 0 :: bs]⟩) := by
  have he2 : e2 = ⟨.result, e.error⟩ := lys_finish_ok_engine e w () e2 w2 hfin
  rw [herr] at he2
  subst he2
  refine ⟨rfl, rfl, ?_, ?_⟩
  · intro hs ss
    have hack : msg_parse ack_frame = .ok (6, none) := rfl
    simp [lys_finish, finish_rest, msg_send_and_ack, msg_create,
      wait_for_ack, msg_receive, hack]
  · intro bs hs ss hbs
    have hmem : memcpy_take bs 4 = bs := memcpy_take_all bs hbs
    have hpa : param_add (some ⟨0, bs, none, none⟩) = .ok (0 :: bs) := by
      simp [param_add, lys_param_len_lookup, hmem, add32]
    have hmc : msg_create 5 (some ⟨0, bs, none, none⟩) = .ok (7 :: 5 :: 0 :: bs) := by
      have h7 : 2 + (bs.length + 1) = 7 := by omega
      simp [msg_create, hpa, h7]
    have hack : msg_parse ack_frame = .ok (6, none) := rfl
    simp [lys_param_send, param_send_rest, msg_send_and_ack, hmc,
      wait_for_ack, msg_receive, hack]

/-- Witness for c10_finish_not_terminal at a concrete successful finish
from state RESULT with a clear error flag, exercising the repeated finish
and the repeated param_send. -/
theorem c10_witness :
    (⟨.result, false⟩ : Engine).state = .result ∧
    (⟨.result, false⟩ : Engine).error = false ∧
    lys_finish ⟨.result, false⟩ ⟨[ack_frame], []⟩ =
      .ok () ⟨.result, false⟩ ⟨[], [[2, 4]]⟩ ∧
    lys_param_send (some ⟨0, [1, 2, 3, 4], none, none⟩) ⟨.result, false⟩
        ⟨[ack_frame], []⟩ =
      .ok () ⟨.result, false⟩ ⟨[], [[7, 5, 0, 1, 2, 3, 4]]⟩ := by
  have h := c10_finish_not_terminal ⟨.result, false⟩ ⟨[ack_frame], []⟩
    ⟨.result, false⟩ ⟨[], [[2, 4]]⟩ rfl rfl
  exact ⟨h.1, h.2.1, h.2.2.1 [] [], h.2.2.2 [1, 2, 3, 4] [] [] rfl⟩

/-- A host frame that one expected entry of params_receive accepts: it
parses as a PARAM frame whose view carries the expected tag and whose copy
step succeeds. -/
def frameMatches (t : Nat) (f : List Nat) : Bool :=
  match msg_parse f with
  | .ok (op, some v) => op == 5 && viewTag v == t && (copy_step t v).isNone
  | _ => false

/-- A host frame that parses as a PARAM frame (with some view). -/
def isParamFrame (f : List Nat) : Bool :=
  match msg_parse f with
  | .ok (op, some _) => op == 5
  | _ => false

theorem frameMatches_spec (t : Nat) (f : List Nat)
    (h : frameMatches t f = true) :
    ∃ v, msg_parse f = .ok (5, some v) ∧ viewTag v = t ∧ copy_step t v = none := by
  unfold frameMatches at h
  split at h
  next op v heq =>
    simp only [Bool.and_eq_true, beq_iff_eq, Option.isNone_iff_eq_none] at h
    refine ⟨v, ?_, h.1.2, h.2⟩
    rw [heq, h.1.1]
  next => simp at h

theorem isParamFrame_spec (f : List Nat) (h : isParamFrame f = true) :
    ∃ v, msg_parse f = .ok (5, some v) := by
  unfold isParamFrame at h
  split at h
  next op v heq =>
    simp only [beq_iff_eq] at h
    exact ⟨v, by rw [heq, h]⟩
  next => simp at h

theorem ack_replicate_shift (ss : List (List Nat)) (n : Nat) :
    (ss ++ List.replicate n ack_frame) ++ [ack_frame] =
      ss ++ List.replicate (n + 1) ack_frame := by
  rw [List.append_assoc]
  congr 1
  induction n with
  | zero => rfl
  | succ k ih => simpa [List.replicate_succ] using ih

/-- Consuming a prefix of matching PARAM frames leaves params_receive at
the empty expected list with the frames consumed and one ACK sent per
frame; the engine cells are unchanged. -/
theorem params_receive_consume (ps : List (Nat × List Nat)) (e : Engine)
    (hs ss : List (List Nat)) (hst : e.state = .wait_for_start)
    (hm : ∀ p ∈ ps, frameMatches p.1 p.2 = true) :
    lys_params_receive (ps.map Prod.fst) e ⟨ps.map Prod.snd ++ hs, ss⟩ =
      lys_params_receive [] e ⟨hs, ss ++ List.replicate ps.length ack_frame⟩ := by
  induction ps generalizing ss with
  | nil => simp
  | cons p ps ih =>
    obtain ⟨t, f⟩ := p
    obtain ⟨v, hf, hvt, hcs⟩ := frameMatches_spec t f (hm (t, f) (by simp))
    have hpw := param_wait_param_frame e f v (ps.map Prod.snd ++ hs) ss hst hf
    have htail : ∀ q ∈ ps, frameMatches q.1 q.2 = true := by
      intro q hq
      exact hm q (List.mem_cons_of_mem _ hq)
    simp only [List.map_cons, List.cons_append, lys_params_receive, hpw]
    simp only [hvt, hcs]
    rw [if_neg (by simp : ¬(true = false)), if_neg (by simp : ¬(t ≠ t)),
      ih (ss ++ [ack_frame]) htail]
    simp [List.append_assoc, List.replicate_succ]
    rfl

theorem params_receive_nil_start (e : Engine) (hs ss : List (List Nat))
    (hst : e.state = .wait_for_start) :
    lys_params_receive [] e ⟨[2, 2] :: hs, ss⟩ =
      .ok () ⟨.running, e.error⟩ ⟨hs, ss ++ [ack_frame]⟩ := by
  have hpw := param_wait_start_frame e hs ss hst
  simp [lys_params_receive, hpw]

/-- Claim C8: from WAIT_FOR_START with an expected list of any length n,
if the host delivers n matching PARAM frames and then a further PARAM frame
instead of START, params_receive returns InvalidState with the state forced
to UNKNOWN and the sticky error flag set; if instead START follows the n-th
PARAM, params_receive succeeds and the state is RUNNING.  Every received
frame, including the final one, is ACKed. -/
theorem c8_extra_param_vs_start (ps : List (Nat × List Nat)) (e : Engine)
    (g : List Nat) (hs ss : List (List Nat))
    (hst : e.state = .wait_for_start)
    (hm : ∀ p ∈ ps, frameMatches p.1 p.2 = true) :
    (isParamFrame g = true →
      lys_params_receive (ps.map Prod.fst) e ⟨ps.map Prod.snd ++ g :: hs, ss⟩ =
        .er .invalid_state ⟨.unknown, true⟩
          ⟨hs, ss ++ List.replicate (ps.length + 1) ack_frame⟩) ∧
    lys_params_receive (ps.map Prod.fst) e ⟨ps.map Prod.snd ++ [2, 2] :: hs, ss⟩ =
      .ok () ⟨.running, e.error⟩
        ⟨hs, ss ++ List.replicate (ps.length + 1) ack_frame⟩ := by
  constructor
  · intro hg
    obtain ⟨v, hgv⟩ := isParamFrame_spec g hg
    rw [params_receive_consume ps e (g :: hs) ss hst hm,
      params_receive_nil_param e g v hs _ hst hgv, ack_replicate_shift]
  · rw [params_receive_consume ps e ([2, 2] :: hs) ss hst hm,
      params_receive_nil_start e hs _ hst, ack_replicate_shift]

/-- Witness for c8_extra_param_vs_start with one expected U32 entry: the
host sends a matching PARAM frame and then either an extra PARAM frame or
START. -/
theorem c8_witness :
    lys_params_receive [0] ⟨.wait_for_start, false⟩
        ⟨[[7, 5, 0, 1, 2, 3, 4], [7, 5, 0, 9, 9, 9, 9]], []⟩ =
      .er .invalid_state ⟨.unknown, true⟩ ⟨[], [ack_frame, ack_frame]⟩ ∧
    lys_params_receive [0] ⟨.wait_for_start, false⟩
        ⟨[[7, 5, 0, 1, 2, 3, 4], [2, 2]], []⟩ =
      .ok () ⟨.running, false⟩ ⟨[], [ack_frame, ack_frame]⟩ := by
  have h := c8_extra_param_vs_start [(0, [7, 5, 0, 1, 2, 3, 4])]
    ⟨.wait_for_start, false⟩ [7, 5, 0, 9, 9, 9, 9] [] [] rfl (by decide)
  exact ⟨h.1 (by decide), h.2⟩

/-- Every engine carried by an operation result has a non-FINISHED state
(trivially true for ub and stuck, which carry none). -/
def resNF {α : Type} : OpRes α → Prop
  | .ok _ e2 _ => e2.state ≠ .finished
  | .er _ e2 _ => e2.state ≠ .finished
  | .ub => True
  | .stuck => True

theorem param_wait_rest_nf (e : Engine) (w : Wire) (h : e.state ≠ .finished) :
    resNF (param_wait_rest e w) := by
  unfold param_wait_rest
  split
  · exact h
  · cases hr : msg_receive_and_ack w with
    | ok r w2 =>
      obtain ⟨op, pv⟩ := r
      by_cases h2 : op = 2
      · simp [h2, resNF]
      · by_cases h5 : op = 5
        · simp [h2, h5, resNF, h]
        · simp [h2, h5, resNF]
    | er c w2 => simp [resNF]
    | ub => simp [resNF]
    | stuck => simp [resNF]

theorem lys_param_wait_nf (e : Engine) (w : Wire) (h : e.state ≠ .finished) :
    resNF (lys_param_wait e w) := by
  unfold lys_param_wait
  split
  · cases hr : msg_send_and_ack 1 none w with
    | ok a w2 =>
      exact param_wait_rest_nf { e with state := .wait_for_start } w2 (by simp)
    | er c w2 => simp [resNF]
    | ub => simp [resNF]
    | stuck => simp [resNF]
  · exact param_wait_rest_nf e w h

theorem lys_params_receive_nf (ts : List Nat) (e : Engine) (w : Wire)
    (h : e.state ≠ .finished) : resNF (lys_params_receive ts e w) := by
  induction ts generalizing e w with
  | nil =>
    simp only [lys_params_receive]
    cases hr : lys_param_wait e w with
    | ok a e2 w2 =>
      have hnf := lys_param_wait_nf e w h
      rw [hr] at hnf
      have he2 : e2.state ≠ .finished := by simpa [resNF] using hnf
      obtain ⟨pv, pset⟩ := a
      by_cases hp : pset <;> simp [hp, resNF, he2]
    | er c e2 w2 =>
      have hnf := lys_param_wait_nf e w h
      rw [hr] at hnf
      simpa [resNF] using hnf
    | ub => simp [resNF]
    | stuck => simp [resNF]
  | cons t rest ih =>
    simp only [lys_params_receive]
    cases hr : lys_param_wait e w with
    | ok a e2 w2 =>
      have hnf := lys_param_wait_nf e w h
      rw [hr] at hnf
      have he2 : e2.state ≠ .finished := by simpa [resNF] using hnf
      obtain ⟨pv, pset⟩ := a
      by_cases hp : pset = false
      · simp [hp, resNF, he2]
      · rcases pv with _ | v
        · simp [hp, resNF]
        · by_cases hvt : viewTag v ≠ t
          · simp [hp, hvt, resNF, he2]
          · rcases hcv : copy_step t v with _ | c
            · simpa [hp, hvt, hcv, resNF] using ih e2 w2 he2
            · simp [hp, hvt, hcv, resNF, he2]
    | er c e2 w2 =>
      have hnf := lys_param_wait_nf e w h
      rw [hr] at hnf
      simpa [resNF] using hnf
    | ub => simp [resNF]
    | stuck => simp [resNF]

theorem param_send_rest_nf (p : Option lys_param_t) (e : Engine) (w : Wire)
    (h : e.state ≠ .finished) : resNF (param_send_rest p e w) := by
  unfold param_send_rest
  split
  · exact h
  · cases hr : msg_send_and_ack 5 p w <;> simp [resNF, h]

theorem lys_param_send_nf (p : Option lys_param_t) (e : Engine) (w : Wire)
    (h : e.state ≠ .finished) : resNF (lys_param_send p e w) := by
  unfold lys_param_send
  split
  · cases hr : msg_send_and_ack 3 none w with
    | ok a w2 => exact param_send_rest_nf p { e with state := .result } w2 (by simp)
    | er c w2 => simp [resNF]
    | ub => simp [resNF]
    | stuck => simp [resNF]
  · exact param_send_rest_nf p e w h

theorem finish_rest_nf (e : Engine) (w : Wire) (h : e.state ≠ .finished) :
    resNF (finish_rest e w) := by
  unfold finish_rest
  split
  · exact h
  · cases hr : msg_send_and_ack 4 none w <;> simp [resNF]

theorem lys_finish_nf (e : Engine) (w : Wire) (h : e.state ≠ .finished) :
    resNF (lys_finish e w) := by
  unfold lys_finish
  split
  · cases hr : msg_send_and_ack 3 none w with
    | ok a w2 => exact finish_rest_nf { e with state := .result } w2 (by simp)
    | er c w2 => simp [resNF]
    | ub => simp [resNF]
    | stuck => simp [resNF]
  · exact finish_rest_nf e w h

theorem lys_results_send_nf (ps : List lys_param_t) (e : Engine) (w : Wire)
    (h : e.state ≠ .finished) : resNF (lys_results_send ps e w) := by
  induction ps generalizing e w with
  | nil => exact lys_finish_nf e w h
  | cons p ps ih =>
    simp only [lys_results_send]
    cases hr : lys_param_send (some p) e w with
    | ok a e2 w2 =>
      have hnf := lys_param_send_nf (some p) e w h
      rw [hr] at hnf
      exact ih e2 w2 (by simpa [resNF] using hnf)
    | er c e2 w2 =>
      have hnf := lys_param_send_nf (some p) e w h
      rw [hr] at hnf
      simpa [resNF] using hnf
    | ub => simp [resNF]
    | stuck => simp [resNF]

theorem lys_error_send_nf (e : Engine) (w : Wire) : resNF (lys_error_send e w) := by
  have hmc : msg_create 0 none = .ok [2, 0] := rfl
  unfold lys_error_send
  rw [hmc]
  cases hr : wait_for_ack ⟨w.host, w.sent ++ [[2, 0]]⟩ <;> simp [hr, resNF]

theorem lys_log_send_nf (s : Option lys_str_t) (e : Engine) (w : Wire)
    (h : e.state ≠ .finished) : resNF (lys_log_send s e w) := by
  unfold lys_log_send
  split
  · exact h
  · cases hr : msg_send_and_ack 7 (some ⟨5, [], s, none⟩) w <;> simp [resNF, h]

/-- One invocation of a public engine operation with its arguments. -/
inductive PubOp
  | opInit
  | opParamWait
  | opParamsReceive (ts : List Nat)
  | opParamSend (p : Option lys_param_t)
  | opResultsSend (ps : List lys_param_t)
  | opFinish
  | opErrorSend
  | opLogSend (s : Option lys_str_t)

/-- The engine cells after an operation result; a ub or stuck call never
returns (and no state write producing FINISHED is modelled inside either),
so the pre-call engine stands in. -/
def engineOf {α : Type} (e : Engine) : OpRes α → Engine
  | .ok _ e2 _ => e2
  | .er _ e2 _ => e2
  | .ub => e
  | .stuck => e

/-- Run one public operation against its own host wire, keeping the
engine. -/
def runOp (e : Engine) (ow : PubOp × Wire) : Engine :=
  match ow.1 with
  | .opInit => lys_init
  | .opParamWait => engineOf e (lys_param_wait e ow.2)
  | .opParamsReceive ts => engineOf e (lys_params_receive ts e ow.2)
  | .opParamSend p => engineOf e (lys_param_send p e ow.2)
  | .opResultsSend ps => engineOf e (lys_results_send ps e ow.2)
  | .opFinish => engineOf e (lys_finish e ow.2)
  | .opErrorSend => engineOf e (lys_error_send e ow.2)
  | .opLogSend s => engineOf e (lys_log_send s e ow.2)

theorem engineOf_nf {α : Type} (e : Engine) (r : OpRes α)
    (he : e.state ≠ .finished) (hr : resNF r) :
    (engineOf e r).state ≠ .finished := by
  cases r with
  | ok a e2 w2 => simpa [engineOf, resNF] using hr
  | er c e2 w2 => simpa [engineOf, resNF] using hr
  | ub => simpa [engineOf] using he
  | stuck => simpa [engineOf] using he

theorem runOp_nf (e : Engine) (ow : PubOp × Wire) (h : e.state ≠ .finished) :
    (runOp e ow).state ≠ .finished := by
  obtain ⟨o, w⟩ := ow
  cases o with
  | opInit => simp [runOp, lys_init]
  | opParamWait => exact engineOf_nf e _ h (lys_param_wait_nf e w h)
  | opParamsReceive ts => exact engineOf_nf e _ h (lys_params_receive_nf ts e w h)
  | opParamSend p => exact engineOf_nf e _ h (lys_param_send_nf p e w h)
  | opResultsSend ps => exact engineOf_nf e _ h (lys_results_send_nf ps e w h)
  | opFinish => exact engineOf_nf e _ h (lys_finish_nf e w h)
  | opErrorSend => exact engineOf_nf e _ h (lys_error_send_nf e w)
  | opLogSend s => exact engineOf_nf e _ h (lys_log_send_nf s e w h)

/-- Claim C9: starting from initialization, no sequence of public
operations (each run against an arbitrary host wire) ever sets the session
state to FINISHED, and in particular a successful lys_finish leaves the
state equal to RESULT. -/
theorem c9_never_finished :
    (∀ ops : List (PubOp × Wire),
      (ops.foldl runOp lys_init).state ≠ .finished) ∧
    (∀ (e : Engine) (w : Wire) (e2 : Engine) (w2 : Wire),
      lys_finish e w = .ok () e2 w2 → e2.state = .result) := by
  constructor
  · have key : ∀ (ops : List (PubOp × Wire)) (e : Engine),
        e.state ≠ .finished → (ops.foldl runOp e).state ≠ .finished := by
      intro ops
      induction ops with
      | nil => intro e he; simpa using he
      | cons o ops ih => intro e he; exact ih (runOp e o) (runOp_nf e o he)
    intro ops
    exact key ops lys_init (by simp [lys_init])
  · intro e w e2 w2 hfin
    have he2 := lys_finish_ok_engine e w () e2 w2 hfin
    rw [he2]

/-- Witness for c9_never_finished: the empty operation sequence and a
concrete successful finish from state RESULT. -/
theorem c9_witness :
    (([] : List (PubOp × Wire)).foldl runOp lys_init).state ≠ .finished ∧
    lys_finish ⟨.result, false⟩ ⟨[ack_frame], []⟩ =
      .ok () ⟨.result, false⟩ ⟨[], [[2, 4]]⟩ ∧
    (⟨.result, false⟩ : Engine).state = .result :=
  ⟨c9_never_finished.1 [], rfl,
   c9_never_finished.2 ⟨.result, false⟩ ⟨[ack_frame], []⟩ ⟨.result, false⟩
     ⟨[], [[2, 4]]⟩ rfl⟩

end Lys
